import Mathlib

/-!
Verification of the picow air-conditioning controller
(`src/main.rs` plus the spec for the modules `temp_controller`,
`dht11` and `uart_cli`, whose sources are not in the tree).

We shallowly embed:
* the hysteresis temperature controller (state machine, dwell guards),
* the sensor-failure policy around `TelemetryState` (`SHARED_TEMP`/`SHARED_HUMID`),
* the telemetry TCP server loop of `main` (accept/read/reply, buffers, timeouts),
* the startup sequence of `main` (join retry loop, DHCP wait, spawn order).

Timestamps and durations are modelled as natural numbers of seconds
(`embassy_time` instants are monotone tick counters; elapsed time is the
truncated difference, which in the hardware can never be negative).
Temperatures are `Int` (spec §3: signed whole degrees), humidity is `Nat`
(spec §3: unsigned whole percent).
-/

/-- Actuator state of the hysteresis controller (spec §4.3: `Idle`, `Heating`). -/
inductive ActuatorState
  | idle
  | heating
deriving DecidableEq, Repr

/-- Configuration of the controller.

Modelled from the spec: `temp_controller.rs` is not in `src/`; spec §3
`ControllerConfig = { target_temperature, min_on_duration, min_off_duration }`,
durations in seconds. -/
structure ControllerConfig where
  targetTemperature : Int
  minOnDuration : Nat
  minOffDuration : Nat
deriving DecidableEq, Repr

/-- Mutable state of the controller.

Modelled from the spec: spec §3 `ControllerState = { actuator, last_transition }`;
we additionally carry the digital heater output that spec §4.3 says is driven
on every transition. -/
structure ControllerState where
  actuator : ActuatorState
  lastTransition : Nat
  output : Bool
deriving DecidableEq, Repr

/-- The controller built in `main.rs` lines 68-72:
`TempController::new(22, Duration::from_secs(10), Duration::from_secs(10))`.
The spec (§9, open questions) reads the two duration arguments, by call-site
order, as minimum off-duration then minimum on-duration; both are 10 s here. -/
def mainControllerConfig : ControllerConfig :=
  { targetTemperature := 22, minOnDuration := 10, minOffDuration := 10 }

/-- Initial controller state.

Modelled from the spec: spec §4.3 "Initial state: `Idle`"; the heater output
starts deasserted, and there is no prior transition to dwell on
(spec §8 scenario A: the first cycle has "no prior dwell to respect"). -/
def ControllerState.initial : ControllerState :=
  { actuator := .idle, lastTransition := 0, output := false }

/-- One control cycle of the hysteresis controller, evaluated at time `now`
against temperature reading `temp`.

Modelled from the spec: spec §4.3 transition rules —
`Idle → Heating` iff `temp < target` and elapsed `≥ min_off_duration`;
`Heating → Idle` iff `temp ≥ target` and elapsed `≥ min_on_duration`;
otherwise no change. On a transition `last_transition := now` and the digital
output is driven to match the new state. -/
def controllerStep (cfg : ControllerConfig) (s : ControllerState)
    (now : Nat) (temp : Int) : ControllerState :=
  match s.actuator with
  | .idle =>
      if temp < cfg.targetTemperature ∧ cfg.minOffDuration ≤ now - s.lastTransition then
        { actuator := .heating, lastTransition := now, output := true }
      else s
  | .heating =>
      if cfg.targetTemperature ≤ temp ∧ cfg.minOnDuration ≤ now - s.lastTransition then
        { actuator := .idle, lastTransition := now, output := false }
      else s

/-- Run the controller over a sequence of timed readings `(now, temp)`. -/
def controllerRun (cfg : ControllerConfig) (s : ControllerState) :
    List (Nat × Int) → ControllerState
  | [] => s
  | (now, temp) :: rest => controllerRun cfg (controllerStep cfg s now temp) rest

/-- The transition events of a run: the list of `(time, new actuator state)`
pairs at which the actuator changed state. -/
def transitionEvents (cfg : ControllerConfig) (s : ControllerState) :
    List (Nat × Int) → List (Nat × ActuatorState)
  | [] => []
  | (now, temp) :: rest =>
      let s' := controllerStep cfg s now temp
      if s'.actuator ≠ s.actuator then
        (now, s'.actuator) :: transitionEvents cfg s' rest
      else
        transitionEvents cfg s' rest

/-- The minimum dwell that guards a transition *into* the given state:
entering `Heating` requires having been off (`Idle`) for `min_off_duration`;
entering `Idle` requires having been on (`Heating`) for `min_on_duration`. -/
def dwellFor (cfg : ControllerConfig) : ActuatorState → Nat
  | .heating => cfg.minOffDuration
  | .idle => cfg.minOnDuration

/-- The opposite actuator state. -/
def ActuatorState.flip : ActuatorState → ActuatorState
  | .idle => .heating
  | .heating => .idle

theorem controllerStep_actuator_cases (cfg : ControllerConfig) (s : ControllerState)
    (now : Nat) (temp : Int) :
    controllerStep cfg s now temp = s ∨
      controllerStep cfg s now temp =
        { actuator := s.actuator.flip, lastTransition := now,
          output := s.actuator.flip == ActuatorState.heating } := by
  rcases h : s.actuator with _ | _
  · by_cases hc : temp < cfg.targetTemperature ∧ cfg.minOffDuration ≤ now - s.lastTransition
    · right; simp [controllerStep, h, hc, ActuatorState.flip]
    · left; simp [controllerStep, h, hc]
  · by_cases hc : cfg.targetTemperature ≤ temp ∧ cfg.minOnDuration ≤ now - s.lastTransition
    · right; simp [controllerStep, h, hc, ActuatorState.flip]
    · left; simp [controllerStep, h, hc]

theorem controllerStep_dwell (cfg : ControllerConfig) (s : ControllerState)
    (now : Nat) (temp : Int)
    (hne : (controllerStep cfg s now temp).actuator ≠ s.actuator) :
    dwellFor cfg (controllerStep cfg s now temp).actuator ≤ now - s.lastTransition ∧
      (controllerStep cfg s now temp).actuator = s.actuator.flip ∧
      (controllerStep cfg s now temp).lastTransition = now := by
  rcases h : s.actuator with _ | _
  · by_cases hc : temp < cfg.targetTemperature ∧ cfg.minOffDuration ≤ now - s.lastTransition
    · refine ⟨?_, ?_, ?_⟩ <;> simp [controllerStep, h, hc, dwellFor, ActuatorState.flip]
    · exfalso; apply hne; simp [controllerStep, h, hc]
  · by_cases hc : cfg.targetTemperature ≤ temp ∧ cfg.minOnDuration ≤ now - s.lastTransition
    · refine ⟨?_, ?_, ?_⟩ <;> simp [controllerStep, h, hc, dwellFor, ActuatorState.flip]
    · exfalso; apply hne; simp [controllerStep, h, hc]

theorem controllerStep_no_transition (cfg : ControllerConfig) (s : ControllerState)
    (now : Nat) (temp : Int)
    (heq : (controllerStep cfg s now temp).actuator = s.actuator) :
    controllerStep cfg s now temp = s := by
  rcases controllerStep_actuator_cases cfg s now temp with h | h
  · exact h
  · rw [h] at heq; cases hs : s.actuator <;> rw [hs] at heq <;>
      simp [ActuatorState.flip] at heq

/-- The dwell-chain predicate: every event in the list happens at least the
applicable dwell after the previous transition time, flips the previous
actuator state, and the chain continues from it. -/
def dwellChain (cfg : ControllerConfig) :
    Nat → ActuatorState → List (Nat × ActuatorState) → Prop
  | _, _, [] => True
  | last, act, (t, a) :: rest =>
      a = act.flip ∧ dwellFor cfg a ≤ t - last ∧ dwellChain cfg t a rest

theorem transitionEvents_dwellChain (cfg : ControllerConfig) :
    ∀ (readings : List (Nat × Int)) (s : ControllerState),
      dwellChain cfg s.lastTransition s.actuator (transitionEvents cfg s readings) := by
  intro readings
  induction readings with
  | nil => intro s; trivial
  | cons r rest ih =>
      intro s
      obtain ⟨now, temp⟩ := r
      show dwellChain cfg s.lastTransition s.actuator
        (transitionEvents cfg s ((now, temp) :: rest))
      unfold transitionEvents
      simp only []
      split
      case _ hne =>
        obtain ⟨hdwell, hflip, hlast⟩ := controllerStep_dwell cfg s now temp hne
        refine ⟨hflip, hdwell, ?_⟩
        have := ih (controllerStep cfg s now temp)
        rwa [hlast] at this
      case _ heq =>
        push_neg at heq
        rw [controllerStep_no_transition cfg s now temp heq]
        exact ih s

theorem dwellChain_head (cfg : ControllerConfig) (last : Nat) (act : ActuatorState) :
    ∀ (evs : List (Nat × ActuatorState)), dwellChain cfg last act evs →
      ∀ e, evs[0]? = some e → e.2 = act.flip ∧ dwellFor cfg e.2 ≤ e.1 - last := by
  intro evs
  cases evs with
  | nil => intro _ e h; simp at h
  | cons x rest =>
      intro hchain e h
      obtain ⟨t, a⟩ := x
      obtain ⟨hflip, hdwell, _⟩ := hchain
      simp only [List.getElem?_cons_zero, Option.some_inj] at h
      subst h
      exact ⟨hflip, hdwell⟩

theorem dwellChain_pairwise (cfg : ControllerConfig) :
    ∀ (evs : List (Nat × ActuatorState)) (last : Nat) (act : ActuatorState),
      dwellChain cfg last act evs →
      ∀ (i : Nat) (e₁ e₂ : Nat × ActuatorState),
        evs[i]? = some e₁ → evs[i + 1]? = some e₂ →
        e₂.2 = e₁.2.flip ∧ dwellFor cfg e₂.2 ≤ e₂.1 - e₁.1 := by
  intro evs
  induction evs with
  | nil => intro _ _ _ i e₁ e₂ h₁ _; simp at h₁
  | cons x rest ih =>
      intro last act hchain i e₁ e₂ h₁ h₂
      obtain ⟨t, a⟩ := x
      obtain ⟨_, _, htail⟩ := hchain
      cases i with
      | zero =>
          simp only [List.getElem?_cons_zero, Option.some_inj] at h₁
          subst h₁
          have h₂' : rest[0]? = some e₂ := by simpa using h₂
          exact dwellChain_head cfg t a rest htail e₂ h₂'
      | succ j =>
          have h₁' : rest[j]? = some e₁ := by simpa using h₁
          have h₂' : rest[j + 1]? = some e₂ := by simpa using h₂
          exact ih t a htail j e₁ e₂ h₁' h₂'

/-- C1: for every sequence of readings fed to the hysteresis controller,
no two actuator state transitions occur closer together in time than the
applicable minimum dwell: a transition into `Heating` happens at least
`min_off_duration` after the controller entered `Idle` (which the previous
transition did — consecutive transitions alternate), and a transition into
`Idle` happens at least `min_on_duration` after the controller entered
`Heating`, for arbitrary (also rapidly fluctuating) inputs. -/
theorem hysteresis_anti_chatter (cfg : ControllerConfig) (readings : List (Nat × Int))
    (i : Nat) (e₁ e₂ : Nat × ActuatorState)
    (h₁ : (transitionEvents cfg ControllerState.initial readings)[i]? = some e₁)
    (h₂ : (transitionEvents cfg ControllerState.initial readings)[i + 1]? = some e₂) :
    e₂.2 = e₁.2.flip ∧ dwellFor cfg e₂.2 ≤ e₂.1 - e₁.1 :=
  dwellChain_pairwise cfg _ _ _
    (transitionEvents_dwellChain cfg readings ControllerState.initial) i e₁ e₂ h₁ h₂

theorem hysteresis_anti_chatter_witness :
    ((20 : Nat), ActuatorState.idle).2 = ((10 : Nat), ActuatorState.heating).2.flip ∧
      dwellFor mainControllerConfig ((20 : Nat), ActuatorState.idle).2 ≤ 20 - 10 :=
  hysteresis_anti_chatter mainControllerConfig [(10, 20), (20, 23)] 0
    (10, .heating) (20, .idle) (by decide) (by decide)

/-- C2: the controller starts in `Idle`; each control cycle transitions
`Idle → Heating` iff `temp < target` and at least `min_off_duration` elapsed
since `last_transition`, and `Heating → Idle` iff `temp ≥ target` and at
least `min_on_duration` elapsed; otherwise nothing changes. On every
transition `last_transition` is set to the current time and the digital
output is driven to match the new state. -/
theorem controller_step_spec :
    ControllerState.initial.actuator = ActuatorState.idle ∧
    ∀ (cfg : ControllerConfig) (s : ControllerState) (now : Nat) (temp : Int),
      (s.actuator = .idle →
        ((controllerStep cfg s now temp).actuator = .heating ↔
          temp < cfg.targetTemperature ∧ cfg.minOffDuration ≤ now - s.lastTransition)) ∧
      (s.actuator = .heating →
        ((controllerStep cfg s now temp).actuator = .idle ↔
          cfg.targetTemperature ≤ temp ∧ cfg.minOnDuration ≤ now - s.lastTransition)) ∧
      ((controllerStep cfg s now temp).actuator ≠ s.actuator →
        (controllerStep cfg s now temp).lastTransition = now ∧
          (controllerStep cfg s now temp).output =
            ((controllerStep cfg s now temp).actuator == ActuatorState.heating)) ∧
      ((controllerStep cfg s now temp).actuator = s.actuator →
        controllerStep cfg s now temp = s) := by
  refine ⟨rfl, ?_⟩
  intro cfg s now temp
  refine ⟨?_, ?_, ?_, controllerStep_no_transition cfg s now temp⟩
  · intro hs
    by_cases hc : temp < cfg.targetTemperature ∧ cfg.minOffDuration ≤ now - s.lastTransition
    · simp [controllerStep, hs, hc]
    · simp only [controllerStep, hs, if_neg hc]
      simp [hc]
  · intro hs
    by_cases hc : cfg.targetTemperature ≤ temp ∧ cfg.minOnDuration ≤ now - s.lastTransition
    · simp [controllerStep, hs, hc]
    · simp only [controllerStep, hs, if_neg hc]
      simp [hc]
  · intro hne
    obtain ⟨hdwell, hflip, hlast⟩ := controllerStep_dwell cfg s now temp hne
    refine ⟨hlast, ?_⟩
    rcases controllerStep_actuator_cases cfg s now temp with h | h
    · exact absurd (congrArg ControllerState.actuator h) hne
    · rw [h]

theorem controller_step_spec_witness :
    (controllerStep mainControllerConfig ControllerState.initial 10 20).actuator =
        ActuatorState.heating ∧
      (controllerStep mainControllerConfig ControllerState.initial 10 20).lastTransition = 10 :=
  ⟨((controller_step_spec.2 mainControllerConfig ControllerState.initial 10 20).1 rfl).mpr
      (by decide),
    (((controller_step_spec.2 mainControllerConfig ControllerState.initial 10 20).2.2.1)
      (by decide)).1⟩

/-- Sensor acquisition errors (spec §4.1: `SensorError::{Timeout, ChecksumMismatch}`). -/
inductive SensorError
  | timeout
  | checksumMismatch
deriving DecidableEq, Repr

/-- A sensor reading (spec §3): temperature in signed whole degrees,
humidity in unsigned whole percent. -/
structure Reading where
  temperature : Int
  humidity : Nat
deriving DecidableEq, Repr

/-- State of the sensor/control task together with the published telemetry
cells.

Modelled from the spec: `temp_controller_task` (which owns the DHT11 and
stores into `SHARED_TEMP`/`SHARED_HUMID`) is not in `src/`. `lastReading`
is the caller's last known-good reading (§4.1), `telemetry` the pair of
shared cells that `TelemetryState.read()` returns (§4.2). -/
structure SensorTaskState where
  lastReading : Reading
  telemetry : Reading
deriving DecidableEq, Repr

/-- One sensor cycle.

Modelled from the spec: §4.1 "the caller retains the last known-good
`Reading` and skips publishing for that cycle — readings are never
synthesized"; §4.2 `publish` overwrites both cells. The `Bool` records
whether this cycle published. -/
def sensorCycle (s : SensorTaskState) (result : Except SensorError Reading) :
    SensorTaskState × Bool :=
  match result with
  | .ok r => ({ lastReading := r, telemetry := r }, true)
  | .error _ => (s, false)

/-- Run the sensor task over a sequence of acquisition results. -/
def sensorRun (s : SensorTaskState) : List (Except SensorError Reading) → SensorTaskState
  | [] => s
  | r :: rest => sensorRun (sensorCycle s r).1 rest

/-- Whether an acquisition result is a failure. -/
def isSensorFailure : Except SensorError Reading → Bool
  | .ok _ => false
  | .error _ => true

theorem sensorRun_all_errors (s : SensorTaskState) :
    ∀ results : List (Except SensorError Reading),
      (∀ r ∈ results, isSensorFailure r = true) → sensorRun s results = s := by
  intro results
  induction results generalizing s with
  | nil => intro _; rfl
  | cons r rest ih =>
      intro hall
      cases r with
      | ok v => simpa [isSensorFailure] using hall (.ok v) (by simp)
      | error e =>
          show sensorRun s rest = s
          exact ih s fun r hr => hall r (by simp [hr])

theorem sensorRun_no_synthesis (s : SensorTaskState) :
    ∀ results : List (Except SensorError Reading),
      (sensorRun s results).telemetry = s.telemetry ∨
        ∃ v, Except.ok v ∈ results ∧ (sensorRun s results).telemetry = v := by
  intro results
  induction results generalizing s with
  | nil => left; rfl
  | cons r rest ih =>
      cases r with
      | ok v =>
          rcases ih ({ lastReading := v, telemetry := v } : SensorTaskState) with h | ⟨w, hw, hv⟩
          · right; exact ⟨v, by simp, h⟩
          · right; exact ⟨w, by simp [hw], hv⟩
      | error e =>
          rcases ih s with h | ⟨w, hw, hv⟩
          · left; exact h
          · right; exact ⟨w, by simp [hw], hv⟩

/-- C6: on a sensor acquisition failure (timeout or checksum mismatch) the
last known-good reading is retained and publishing is skipped for that
cycle; under persistent sensor failure the telemetry cells keep returning
the last known-good value indefinitely; and the published telemetry is
never synthesized — it is either the initial value or one actually
acquired. -/
theorem sensor_failure_policy :
    (∀ (s : SensorTaskState) (e : SensorError), sensorCycle s (.error e) = (s, false)) ∧
    (∀ (s : SensorTaskState) (results : List (Except SensorError Reading)),
      (∀ r ∈ results, isSensorFailure r = true) → sensorRun s results = s) ∧
    (∀ (s : SensorTaskState) (results : List (Except SensorError Reading)),
      (sensorRun s results).telemetry = s.telemetry ∨
        ∃ v, Except.ok v ∈ results ∧ (sensorRun s results).telemetry = v) :=
  ⟨fun _ _ => rfl, sensorRun_all_errors, sensorRun_no_synthesis⟩

theorem sensor_failure_policy_witness :
    sensorRun ⟨⟨22, 55⟩, ⟨22, 55⟩⟩
        [.error SensorError.timeout, .error SensorError.checksumMismatch] =
      ⟨⟨22, 55⟩, ⟨22, 55⟩⟩ :=
  sensor_failure_policy.2.1 ⟨⟨22, 55⟩, ⟨22, 55⟩⟩
    [.error SensorError.timeout, .error SensorError.checksumMismatch] (by decide)

/-- The ASCII character of the decimal digit `d` (meaningful for `d < 10`). -/
def digitChar (d : Nat) : Char := Char.ofNat (48 + d)

/-- The decimal digits of `n`, least significant first (empty for 0). -/
def natDigitsRev : Nat → List Nat
  | 0 => []
  | n + 1 => ((n + 1) % 10) :: natDigitsRev ((n + 1) / 10)
decreasing_by exact Nat.div_lt_self (Nat.succ_pos n) (by norm_num)

/-- Decimal rendering of an unsigned integer, as the `itoa` crate produces it
for the humidity value in `main.rs` line 212. -/
def natDecimal (n : Nat) : List Char :=
  if n = 0 then ['0'] else (natDigitsRev n).reverse.map digitChar

/-- Decimal rendering of a signed integer, as the `itoa` crate produces it
for the temperature value in `main.rs` line 211: an optional leading minus
sign followed by the decimal digits of the absolute value. -/
def intDecimal (t : Int) : List Char :=
  if t < 0 then '-' :: natDecimal t.natAbs else natDecimal t.toNat

/-- The reply line assembled in `main.rs` lines 209-217:
temperature, `,`, humidity, `\n`. -/
def renderReply (t : Int) (h : Nat) : List Char :=
  intDecimal t ++ ',' :: (natDecimal h ++ ['\n'])

/-- ASCII decimal digit test (the regex class `\d`). -/
def isDigitChar (c : Char) : Bool := 48 ≤ c.toNat && c.toNat ≤ 57

/-- Drop a maximal leading run of digits. -/
def dropDigits : List Char → List Char
  | [] => []
  | c :: rest => if isDigitChar c then dropDigits rest else c :: rest

/-- Consume one or more leading digits (`\d+`); `none` if the input does not
start with a digit. -/
def afterDigits : List Char → Option (List Char)
  | [] => none
  | c :: rest => if isDigitChar c then some (dropDigits rest) else none

/-- Matcher for `\d+,\d+\n` anchored at both ends. -/
def matchesUnsignedBody (cs : List Char) : Bool :=
  match afterDigits cs with
  | some (',' :: r2) =>
      match afterDigits r2 with
      | some r3 => r3 == ['\n']
      | none => false
  | _ => false

/-- The spec's reply-line regex `^-?\d+,\d+\n$` as an executable matcher. -/
def matchesReplyPattern (cs : List Char) : Bool :=
  matchesUnsignedBody (if cs.head? = some '-' then cs.tail else cs)

theorem dropDigits_digits_append (l r : List Char)
    (h : ∀ c ∈ l, isDigitChar c = true) : dropDigits (l ++ r) = dropDigits r := by
  induction l with
  | nil => rfl
  | cons c rest ih =>
      have hc : isDigitChar c = true := h c (by simp)
      simp only [List.cons_append, dropDigits, if_pos hc]
      exact ih fun c hc => h c (by simp [hc])

theorem dropDigits_cons_nondigit (c : Char) (r : List Char)
    (h : isDigitChar c = false) : dropDigits (c :: r) = c :: r := by
  simp [dropDigits, h]

theorem afterDigits_digits_append (l r : List Char) (hne : l ≠ [])
    (h : ∀ c ∈ l, isDigitChar c = true) :
    afterDigits (l ++ r) = some (dropDigits r) := by
  cases l with
  | nil => exact absurd rfl hne
  | cons c rest =>
      have hc : isDigitChar c = true := h c (by simp)
      simp only [List.cons_append, afterDigits, if_pos hc]
      exact congrArg some (dropDigits_digits_append rest r fun c hc => h c (by simp [hc]))

theorem natDigitsRev_lt_ten : ∀ n, ∀ d ∈ natDigitsRev n, d < 10 := by
  intro n
  induction n using Nat.strong_induction_on with
  | _ n ih =>
      cases n with
      | zero => intro d hd; simp [natDigitsRev] at hd
      | succ m =>
          intro d hd
          rw [natDigitsRev] at hd
          rcases List.mem_cons.mp hd with h | h
          · subst h; exact Nat.mod_lt _ (by norm_num)
          · exact ih ((m + 1) / 10) (Nat.div_lt_self (Nat.succ_pos m) (by norm_num)) d h

theorem digitChar_isDigit (d : Nat) (h : d < 10) : isDigitChar (digitChar d) = true := by
  interval_cases d <;> decide

theorem natDecimal_ne_nil (n : Nat) : natDecimal n ≠ [] := by
  unfold natDecimal
  split
  · simp
  case _ h =>
    rcases n with _ | m
    · exact absurd rfl h
    · rw [natDigitsRev]; simp

theorem natDecimal_all_digits (n : Nat) : ∀ c ∈ natDecimal n, isDigitChar c = true := by
  intro c hc
  unfold natDecimal at hc
  split at hc
  · simp at hc; subst hc; decide
  · rcases List.mem_map.mp hc with ⟨d, hd, hdc⟩
    subst hdc
    exact digitChar_isDigit d (natDigitsRev_lt_ten n d (List.mem_reverse.mp hd))

theorem isDigitChar_ne_minus (c : Char) (h : isDigitChar c = true) : c ≠ '-' := by
  intro heq; subst heq; simp [isDigitChar] at h

theorem matchesUnsignedBody_concat (a b : List Char)
    (hna : a ≠ []) (hda : ∀ c ∈ a, isDigitChar c = true)
    (hnb : b ≠ []) (hdb : ∀ c ∈ b, isDigitChar c = true) :
    matchesUnsignedBody (a ++ ',' :: (b ++ ['\n'])) = true := by
  unfold matchesUnsignedBody
  rw [afterDigits_digits_append a _ hna hda,
    dropDigits_cons_nondigit ',' _ (by decide)]
  simp only []
  rw [afterDigits_digits_append b _ hnb hdb]
  decide

theorem matchesReplyPattern_render (t : Int) (hu : Nat) :
    matchesReplyPattern (renderReply t hu) = true := by
  unfold matchesReplyPattern renderReply
  by_cases hneg : t < 0
  · simp only [intDecimal, if_pos hneg, List.cons_append, List.head?_cons, if_pos rfl,
      List.tail_cons]
    exact matchesUnsignedBody_concat _ _ (natDecimal_ne_nil _) (natDecimal_all_digits _)
      (natDecimal_ne_nil _) (natDecimal_all_digits _)
  · simp only [intDecimal, if_neg hneg]
    obtain ⟨c, cs, hcs⟩ := List.exists_cons_of_ne_nil (natDecimal_ne_nil t.toNat)
    have hcd : isDigitChar c = true := by
      apply natDecimal_all_digits t.toNat
      rw [hcs]; simp
    have hcm : ¬ ((natDecimal t.toNat ++ ',' :: (natDecimal hu ++ ['\n'])).head? = some '-') := by
      rw [hcs]
      simp only [List.cons_append, List.head?_cons, Option.some_inj]
      exact isDigitChar_ne_minus c hcd
    rw [if_neg hcm]
    exact matchesUnsignedBody_concat _ _ (natDecimal_ne_nil _) (natDecimal_all_digits _)
      (natDecimal_ne_nil _) (natDecimal_all_digits _)

/-- Result of one `socket.read` in the connection loop of `main.rs`
lines 196-207: `Ok(n)` delivers the received bytes (`Ok(0)`, an empty
payload, is the peer half-close), `Err` is a read error. -/
inductive ReadResult
  | ok (payload : List Nat)
  | err
deriving DecidableEq, Repr

/-- One iteration of the per-connection loop of `main.rs` lines 196-226,
given the current telemetry cells `(t, h)`, the read result, and whether the
subsequent `write_all` succeeds. Returns the list of reply lines written in
this iteration and whether the connection stays open (the code `break`s out
of the loop on EOF, read error, or write error). The received payload is
only matched on its length — its content is never consulted. -/
def connectionStep (t : Int) (h : Nat) (r : ReadResult) (writeOk : Bool) :
    List (List Char) × Bool :=
  match r with
  | .ok [] => ([], false)
  | .ok (_ :: _) => ([renderReply t h], writeOk)
  | .err => ([], false)

/-- C3: on each accepted connection, every non-empty received byte sequence
causes exactly one reply line — the decimal temperature, a comma, the
decimal humidity and a newline, matching `^-?\d+,\d+\n$` — while a
zero-length read (peer half-close) produces no reply and closes the
connection. -/
theorem protocol_roundtrip :
    (∀ (t : Int) (h : Nat) (payload : List Nat) (w : Bool), payload ≠ [] →
      (connectionStep t h (.ok payload) w).1 = [renderReply t h] ∧
        matchesReplyPattern (renderReply t h) = true) ∧
    (∀ (t : Int) (h : Nat) (w : Bool), connectionStep t h (.ok []) w = ([], false)) := by
  refine ⟨?_, fun _ _ _ => rfl⟩
  intro t h payload w hne
  obtain ⟨b, bs, rfl⟩ := List.exists_cons_of_ne_nil hne
  exact ⟨rfl, matchesReplyPattern_render t h⟩

theorem protocol_roundtrip_witness :
    (connectionStep 22 55 (.ok [120]) true).1 = [renderReply 22 55] ∧
      matchesReplyPattern (renderReply 22 55) = true :=
  protocol_roundtrip.1 22 55 [120] true (by decide)

/-- C9: the reply does not depend on the received payload — for any two
non-empty received byte sequences and the same telemetry state, the
connection loop produces identical output (the payload is purely a
trigger). -/
theorem reply_payload_independent (t : Int) (h : Nat) (p₁ p₂ : List Nat) (w : Bool)
    (h₁ : p₁ ≠ []) (h₂ : p₂ ≠ []) :
    connectionStep t h (.ok p₁) w = connectionStep t h (.ok p₂) w := by
  obtain ⟨b₁, bs₁, rfl⟩ := List.exists_cons_of_ne_nil h₁
  obtain ⟨b₂, bs₂, rfl⟩ := List.exists_cons_of_ne_nil h₂
  rfl

theorem reply_payload_independent_witness :
    connectionStep 22 55 (.ok [1]) true = connectionStep 22 55 (.ok [7, 7, 7]) true :=
  reply_payload_independent 22 55 [1] [7, 7, 7] true (by decide) (by decide)

/-- The `heapless::String::<64>` reply buffer `output_string` of `main.rs`
line 165. -/
structure HString64 where
  chars : List Char
deriving DecidableEq, Repr

/-- `heapless` `push_str`: appends iff the result fits in the 64-byte
capacity, otherwise fails leaving the string unchanged. (All rendered
characters are ASCII, so bytes and characters coincide.) -/
def HString64.pushList (s : HString64) (t : List Char) : Except Unit HString64 :=
  if s.chars.length + t.length ≤ 64 then .ok ⟨s.chars ++ t⟩ else .error ()

/-- `heapless` `push` of a single character. -/
def HString64.pushChar (s : HString64) (c : Char) : Except Unit HString64 :=
  if s.chars.length + 1 ≤ 64 then .ok ⟨s.chars ++ [c]⟩ else .error ()

/-- `heapless` `clear`: the string becomes empty. -/
def HString64.clear (_s : HString64) : HString64 := ⟨[]⟩

/-- The `let _ = ...` pattern of `main.rs` lines 214-217: the error result of
a push is discarded, keeping the previous string on failure. -/
def orKeep (s : HString64) (r : Except Unit HString64) : HString64 :=
  match r with
  | .ok v => v
  | .error _ => s

/-- The reply assembly of `main.rs` lines 213-217: clear the buffer, then
push the rendered temperature, a comma, the rendered humidity, and a
newline, each with its error discarded. -/
def assembleReply (prev : HString64) (t : Int) (h : Nat) : HString64 :=
  let s0 := prev.clear
  let s1 := orKeep s0 (s0.pushList (intDecimal t))
  let s2 := orKeep s1 (s1.pushChar ',')
  let s3 := orKeep s2 (s2.pushList (natDecimal h))
  orKeep s3 (s3.pushChar '\n')

theorem natDigitsRev_length_le : ∀ (k n : Nat), n < 10 ^ k → (natDigitsRev n).length ≤ k := by
  intro k
  induction k with
  | zero =>
      intro n hn
      interval_cases n
      simp [natDigitsRev]
  | succ j ih =>
      intro n hn
      cases n with
      | zero => simp [natDigitsRev]
      | succ m =>
          rw [natDigitsRev]
          simp only [List.length_cons]
          have hdiv : (m + 1) / 10 < 10 ^ j := by
            rw [Nat.div_lt_iff_lt_mul (by norm_num : 0 < 10)]
            calc m + 1 < 10 ^ (j + 1) := hn
              _ = 10 ^ j * 10 := by ring
          exact Nat.succ_le_succ (ih _ hdiv)

theorem natDecimal_length_le (k n : Nat) (hk : 1 ≤ k) (hn : n < 10 ^ k) :
    (natDecimal n).length ≤ k := by
  unfold natDecimal
  split
  · simpa using hk
  · simpa using natDigitsRev_length_le k n hn

theorem intDecimal_length_le (t : Int) (ht : t.natAbs < 10 ^ 19) :
    (intDecimal t).length ≤ 20 := by
  unfold intDecimal
  split
  · simp only [List.length_cons]
    exact Nat.succ_le_succ (natDecimal_length_le 19 t.natAbs (by norm_num) ht)
  · have htn : t.toNat = t.natAbs := by omega
    rw [htn]
    exact le_trans (natDecimal_length_le 19 t.natAbs (by norm_num) ht) (by norm_num)

/-- C10: the 64-byte reply buffer is cleared before assembly, so the
assembled reply is exactly the rendering of the values loaded in that
iteration, with no residue from prior replies; every capacity-checked push
succeeds (the rendering of two 64-bit machine integers plus separator and
newline is at most 42 bytes, under the 64-byte capacity), so no reply is
ever silently truncated. -/
theorem reply_buffer_never_truncates (prev : HString64) (t : Int) (h : Nat)
    (ht : t.natAbs ≤ 2 ^ 63) (hh : h < 2 ^ 64) :
    (HString64.mk []).pushList (intDecimal t) = .ok ⟨intDecimal t⟩ ∧
    (HString64.mk (intDecimal t)).pushChar ',' = .ok ⟨intDecimal t ++ [',']⟩ ∧
    (HString64.mk (intDecimal t ++ [','])).pushList (natDecimal h) =
      .ok ⟨intDecimal t ++ [','] ++ natDecimal h⟩ ∧
    (HString64.mk (intDecimal t ++ [','] ++ natDecimal h)).pushChar '\n' =
      .ok ⟨intDecimal t ++ [','] ++ natDecimal h ++ ['\n']⟩ ∧
    assembleReply prev t h = ⟨renderReply t h⟩ ∧
    (renderReply t h).length ≤ 42 := by
  have hta : t.natAbs < 10 ^ 19 := lt_of_le_of_lt ht (by norm_num)
  have hha : h < 10 ^ 20 := lt_of_lt_of_le hh (by norm_num)
  have hlt : (intDecimal t).length ≤ 20 := intDecimal_length_le t hta
  have hlh : (natDecimal h).length ≤ 20 := natDecimal_length_le 20 h (by norm_num) hha
  have h1 : (HString64.mk []).pushList (intDecimal t) = .ok ⟨intDecimal t⟩ := by
    unfold HString64.pushList
    rw [if_pos (by simpa using le_trans hlt (by norm_num))]
    simp
  have h2 : (HString64.mk (intDecimal t)).pushChar ',' = .ok ⟨intDecimal t ++ [',']⟩ := by
    unfold HString64.pushChar
    rw [if_pos (by simp; omega)]
  have h3 : (HString64.mk (intDecimal t ++ [','])).pushList (natDecimal h) =
      .ok ⟨intDecimal t ++ [','] ++ natDecimal h⟩ := by
    unfold HString64.pushList
    rw [if_pos (by simp; omega)]
  have h4 : (HString64.mk (intDecimal t ++ [','] ++ natDecimal h)).pushChar '\n' =
      .ok ⟨intDecimal t ++ [','] ++ natDecimal h ++ ['\n']⟩ := by
    unfold HString64.pushChar
    rw [if_pos (by simp; omega)]
  refine ⟨h1, h2, h3, h4, ?_, ?_⟩
  · show orKeep _ (HString64.pushChar (orKeep _ (HString64.pushList (orKeep _
      (HString64.pushChar (orKeep _ (HString64.pushList ⟨[]⟩ (intDecimal t))) ','))
        (natDecimal h))) '\n') = ⟨renderReply t h⟩
    rw [h1]
    show orKeep _ (HString64.pushChar (orKeep _ (HString64.pushList (orKeep _
      (HString64.pushChar ⟨intDecimal t⟩ ','))
        (natDecimal h))) '\n') = ⟨renderReply t h⟩
    rw [h2]
    show orKeep _ (HString64.pushChar (orKeep _ (HString64.pushList
      ⟨intDecimal t ++ [',']⟩ (natDecimal h))) '\n') = ⟨renderReply t h⟩
    rw [h3]
    show orKeep _ (HString64.pushChar ⟨intDecimal t ++ [','] ++ natDecimal h⟩ '\n') =
      ⟨renderReply t h⟩
    rw [h4]
    show HString64.mk (intDecimal t ++ [','] ++ natDecimal h ++ ['\n']) = ⟨renderReply t h⟩
    unfold renderReply
    simp
  · unfold renderReply
    simp only [List.length_append, List.length_cons, List.length_nil]
    omega

theorem reply_buffer_never_truncates_witness :
    assembleReply ⟨['9', '9', '9']⟩ (-5) 105 = ⟨renderReply (-5) 105⟩ ∧
      (renderReply (-5) 105).length ≤ 42 :=
  ⟨(reply_buffer_never_truncates ⟨['9', '9', '9']⟩ (-5) 105 (by norm_num)
      (by norm_num)).2.2.2.2.1,
    (reply_buffer_never_truncates ⟨['9', '9', '9']⟩ (-5) 105 (by norm_num)
      (by norm_num)).2.2.2.2.2⟩

/-- Control phase of the telemetry server loop of `main.rs` lines 182-227:
either blocked in `accept` (a fresh socket per outer iteration) or serving
the single accepted connection. -/
inductive ServerPhase
  | listening
  | connected
deriving DecidableEq, Repr

/-- Network events driving the server loop: the outcome of `socket.accept`,
of `socket.read` (EOF, data, error) and a failing `write_all`. -/
inductive ServerEvent
  | acceptResult (ok : Bool)
  | readEof
  | readData (payload : List Nat)
  | readErr
  | writeErr
deriving DecidableEq, Repr

/-- The control flow of the accept/read/reply loop of `main.rs`
lines 182-227: an accept error `continue`s the outer loop; EOF, a read
error or a write error `break` the inner loop, dropping the socket and
returning to accept; received data is answered and the inner loop
continues. -/
def serverStep : ServerPhase → ServerEvent → ServerPhase
  | .listening, .acceptResult true => .connected
  | .listening, _ => .listening
  | .connected, .readEof => .listening
  | .connected, .readErr => .listening
  | .connected, .writeErr => .listening
  | .connected, _ => .connected

/-- The server loop run from process start over a sequence of events. -/
def serverRun (evs : List ServerEvent) : ServerPhase :=
  evs.foldl serverStep .listening

/-- Number of simultaneously active connections in a phase. -/
def ServerPhase.activeConnections : ServerPhase → Nat
  | .listening => 0
  | .connected => 1

/-- C5: network errors are never fatal — an accept failure keeps the server
accepting, and EOF, a read error or a write error tear down the current
connection and return the server to accepting, from any state; after any
event sequence the loop is still either accepting or serving, so the accept
loop runs for the life of the process. -/
theorem network_errors_never_fatal :
    serverStep .listening (.acceptResult false) = .listening ∧
    serverStep .connected .readEof = .listening ∧
    serverStep .connected .readErr = .listening ∧
    serverStep .connected .writeErr = .listening ∧
    (∀ (evs : List ServerEvent) (e : ServerEvent),
      e = .readEof ∨ e = .readErr ∨ e = .writeErr → serverRun (evs ++ [e]) = .listening) ∧
    (∀ evs : List ServerEvent, serverRun evs = .listening ∨ serverRun evs = .connected) := by
  refine ⟨rfl, rfl, rfl, rfl, ?_, ?_⟩
  · intro evs e he
    unfold serverRun
    rw [List.foldl_append]
    rcases he with rfl | rfl | rfl <;>
      rcases (List.foldl serverStep ServerPhase.listening evs) with _ | _ <;> rfl
  · intro evs
    rcases h : serverRun evs with _ | _
    · left; rfl
    · right; rfl

theorem network_errors_never_fatal_witness :
    serverRun [.acceptResult true, .readData [1, 2], .readErr] = .listening :=
  network_errors_never_fatal.2.2.2.2.1 [.acceptResult true, .readData [1, 2]]
    .readErr (Or.inr (Or.inl rfl))

/-- The fixed TCP port of `socket.accept(1234)`, `main.rs` line 188. -/
def telemetryPort : Nat := 1234

/-- The idle-connection timeout of `socket.set_timeout(Some(Duration::from_secs(10)))`,
`main.rs` line 184, in seconds. -/
def idleTimeoutSecs : Nat := 10

/-- Size of `rx_buffer`, `main.rs` line 161. -/
def rxBufferSize : Nat := 4096

/-- Size of `tx_buffer`, `main.rs` line 162. -/
def txBufferSize : Nat := 4096

/-- Size of `buf`, the receive scratch buffer passed to `socket.read`,
`main.rs` line 163. -/
def readBufferSize : Nat := 4096

/-- `socket.read(&mut buf)` delivers at most `buf.len()` bytes per call:
longer pending data is truncated to the buffer size for that call. -/
def socketRead (available : List Nat) : List Nat := available.take readBufferSize

/-- C7: the telemetry server listens on fixed TCP port 1234, holds at most
one connection at a time, applies a 10-second idle-connection timeout, and
uses 4096-byte send and receive buffers; a single read delivers at most
4096 bytes (longer input truncates per call). -/
theorem server_configuration :
    telemetryPort = 1234 ∧ idleTimeoutSecs = 10 ∧
    rxBufferSize = 4096 ∧ txBufferSize = 4096 ∧ readBufferSize = 4096 ∧
    (∀ evs : List ServerEvent, (serverRun evs).activeConnections ≤ 1) ∧
    (∀ available : List Nat, (socketRead available).length ≤ 4096) := by
  refine ⟨rfl, rfl, rfl, rfl, rfl, ?_, ?_⟩
  · intro evs
    rcases serverRun evs with _ | _ <;> simp [ServerPhase.activeConnections]
  · intro available
    simp [socketRead, readBufferSize]

/-- Phase of the startup sequence of `main.rs` lines 142-157: retrying
`join_wpa2`, waiting for DHCP configuration, or serving (the accept loop). -/
inductive StartupPhase
  | joining
  | dhcpWait
  | serving
deriving DecidableEq, Repr

/-- Events of the startup sequence: one `join_wpa2` attempt (succeeded or
failed) and one `is_config_up` poll. -/
inductive StartupEvent
  | joinAttempt (ok : Bool)
  | dhcpPoll (up : Bool)
deriving DecidableEq, Repr

/-- The startup control flow of `main.rs` lines 142-157: a failed join is
retried (unbounded loop), a successful join moves on to the DHCP wait; an
unconfigured poll stays waiting, a configured one falls through to the
accept loop; the accept loop is never left again. -/
def startupStep : StartupPhase → StartupEvent → StartupPhase
  | .joining, .joinAttempt true => .dhcpWait
  | .joining, _ => .joining
  | .dhcpWait, .dhcpPoll true => .serving
  | .dhcpWait, _ => .dhcpWait
  | .serving, _ => .serving

/-- Startup run from process start. -/
def startupRun (evs : List StartupEvent) : StartupPhase :=
  evs.foldl startupStep .joining

/-- The DHCP poll interval of `Timer::after_millis(100)`, `main.rs`
line 155, in milliseconds. -/
def dhcpPollIntervalMillis : Nat := 100

theorem startupStep_from_dhcpWait :
    ∀ evs : List StartupEvent, evs.foldl startupStep .dhcpWait = .serving →
      ∃ l₂ l₃, evs = l₂ ++ .dhcpPoll true :: l₃ := by
  intro evs
  induction evs with
  | nil => intro h; simp [List.foldl] at h
  | cons e rest ih =>
      intro h
      match e with
      | .dhcpPoll true => exact ⟨[], rest, rfl⟩
      | .dhcpPoll false =>
          obtain ⟨l₂, l₃, hsplit⟩ := ih h
          exact ⟨.dhcpPoll false :: l₂, l₃, by rw [hsplit]; rfl⟩
      | .joinAttempt b =>
          obtain ⟨l₂, l₃, hsplit⟩ := ih h
          exact ⟨.joinAttempt b :: l₂, l₃, by rw [hsplit]; rfl⟩

/-- C8: at startup, association is retried in an unbounded loop (a failed
join attempt keeps joining) and address acquisition is polled at a fixed
100 ms interval (an unconfigured poll keeps waiting); the accept loop is
reached only after a successful join attempt followed, later, by a
successful configuration poll — never while association or address
acquisition is incomplete. -/
theorem startup_sequencing :
    startupStep .joining (.joinAttempt false) = .joining ∧
    startupStep .dhcpWait (.dhcpPoll false) = .dhcpWait ∧
    dhcpPollIntervalMillis = 100 ∧
    ∀ evs : List StartupEvent, startupRun evs = .serving →
      ∃ l₁ l₂ l₃, evs = l₁ ++ .joinAttempt true :: (l₂ ++ .dhcpPoll true :: l₃) := by
  refine ⟨rfl, rfl, rfl, ?_⟩
  intro evs
  unfold startupRun
  induction evs with
  | nil => intro h; simp [List.foldl] at h
  | cons e rest ih =>
      intro h
      match e with
      | .joinAttempt true =>
          obtain ⟨l₂, l₃, hsplit⟩ := startupStep_from_dhcpWait rest h
          exact ⟨[], l₂, l₃, by rw [hsplit]; rfl⟩
      | .joinAttempt false =>
          obtain ⟨l₁, l₂, l₃, hsplit⟩ := ih h
          exact ⟨.joinAttempt false :: l₁, l₂, l₃, by rw [hsplit]; rfl⟩
      | .dhcpPoll b =>
          obtain ⟨l₁, l₂, l₃, hsplit⟩ := ih h
          exact ⟨.dhcpPoll b :: l₁, l₂, l₃, by rw [hsplit]; rfl⟩

theorem startup_sequencing_witness :
    ∃ l₁ l₂ l₃,
      ([.joinAttempt false, .joinAttempt true, .dhcpPoll false, .dhcpPoll true] :
          List StartupEvent) =
        l₁ ++ .joinAttempt true :: (l₂ ++ .dhcpPoll true :: l₃) :=
  startup_sequencing.2.2.2
    [.joinAttempt false, .joinAttempt true, .dhcpPoll false, .dhcpPoll true] (by decide)

/-- The actions `main` performs between board init and the accept loop,
relevant to task start and telemetry initialization (`main.rs`
lines 111-182), in program order. An `awaitPoint` marks a suspension point
of `main` at which previously spawned tasks can begin running (spec §5:
single-threaded cooperative scheduling). -/
inductive MainEvent
  | spawnWifiTask
  | spawnUartCli
  | spawnNetTask
  | awaitPoint
  | storeInitialReading
  | spawnTempControllerTask
  | acceptLoopStart
deriving DecidableEq, Repr

/-- The startup trace of `main.rs`:
`spawn(wifi_task)` line 111; `control.init`/`set_power_management` awaits
lines 113-116; `spawn(uart_cli)` line 138; `spawn(net_task)` line 140; the
`join_wpa2` retry loop awaits lines 142-150; the DHCP wait awaits
lines 153-157; the 1 s settle timer await line 172; the
`SHARED_TEMP`/`SHARED_HUMID` stores of the first reading lines 173-176;
`spawn(temp_controller_task)` lines 178-180; the accept loop line 182. -/
def mainTrace : List MainEvent :=
  [.spawnWifiTask,
   .awaitPoint,
   .spawnUartCli,
   .spawnNetTask,
   .awaitPoint,
   .awaitPoint,
   .awaitPoint,
   .storeInitialReading,
   .spawnTempControllerTask,
   .acceptLoopStart]

/-- Which trace events start a task that consumes `TelemetryState`.

Modelled from the spec: `uart_cli.rs` is not in `src/`; spec §2's data flow
is `TelemetryState → TelemetryServer` and `→ OperatorConsole (read-only)`,
so both the operator-console task (`uart_cli`) and the telemetry server's
accept loop are consumers. -/
def startsTelemetryConsumer : MainEvent → Bool
  | .spawnUartCli => true
  | .acceptLoopStart => true
  | _ => false

/-- C4 is false on the code: the operator-console task `uart_cli` is a
`TelemetryState` consumer, yet it is spawned (`main.rs` line 138) before
the cells are first stored (lines 175-176), with suspension points of
`main` in between at which it runs — so a consumer task starts before the
cells are initialized. -/
theorem telemetry_init_before_consumers_false :
    startsTelemetryConsumer .spawnUartCli = true ∧
    List.indexOf MainEvent.spawnUartCli mainTrace <
      List.indexOf MainEvent.storeInitialReading mainTrace ∧
    ¬ List.indexOf MainEvent.storeInitialReading mainTrace <
        List.indexOf MainEvent.spawnUartCli mainTrace ∧
    mainTrace[4]? = some MainEvent.awaitPoint := by
  refine ⟨rfl, by decide, by decide, rfl⟩

/-- C4 (amended): the telemetry cells are stored from the first reading
before the accept loop (the `TelemetryServer`) starts and before
`temp_controller_task` is spawned; the operator-console task `uart_cli`,
however, is spawned before the cells are initialized, with suspension
points of `main` between its spawn and the store at which it can run. -/
theorem telemetry_init_order :
    List.indexOf MainEvent.storeInitialReading mainTrace <
      List.indexOf MainEvent.acceptLoopStart mainTrace ∧
    List.indexOf MainEvent.storeInitialReading mainTrace <
      List.indexOf MainEvent.spawnTempControllerTask mainTrace ∧
    List.indexOf MainEvent.spawnUartCli mainTrace <
      List.indexOf MainEvent.storeInitialReading mainTrace ∧
    (∃ i, List.indexOf MainEvent.spawnUartCli mainTrace < i ∧
      i < List.indexOf MainEvent.storeInitialReading mainTrace ∧
      mainTrace[i]? = some MainEvent.awaitPoint) :=
  ⟨by decide, by decide, by decide, 4, by decide, by decide, rfl⟩
